import Mathlib

/-!
Verification development for the rs-api command line client
(request/response pipeline of `right_api_cmd`).

The Go sources are embedded shallowly:
* pure helpers become Lean functions with the same names;
* the response data is given to the model as concrete values (a body is a
  `String` that is fully available, so `ioutil.ReadAll` in `readBody` is
  modelled as always succeeding);
* the one effectful loop (`client.Do`) becomes a fuel-indexed recursion over
  an oracle that supplies the outcome of each transport attempt;
* `encoding/json` decoding into `interface` values is modelled by an
  executable recursive-descent parser producing the `Json` inductive below.
  The model parses one value and ignores trailing input, and it distinguishes
  the empty/whitespace-only input (io.EOF for the Go decoder) from a syntax
  error, exactly as `parseResponseBody` relies on.  Numbers are modelled as
  integers and string escapes are restricted to the simple ones; neither
  restriction is exercised by any theorem below.
-/

namespace RightApiCmd

/-- JSON values as produced by decoding into a Go `interface` value. -/
inductive Json where
  | null
  | bool (b : Bool)
  | num (n : Int)
  | str (s : String)
  | arr (elems : List Json)
  | obj (fields : List (String × Json))

/-- Whitespace characters skipped by the JSON scanner. -/
def isJsonWs (c : Char) : Bool :=
  c = ' ' || c = '\t' || c = '\n' || c = '\r'

/-- Drop leading JSON whitespace. -/
def skipWs : List Char → List Char
  | [] => []
  | c :: cs => if isJsonWs c then skipWs cs else c :: cs

/-- Take the maximal run of characters satisfying `p` from the front. -/
def takeRun (p : Char → Bool) : List Char → List Char × List Char
  | [] => ([], [])
  | c :: cs =>
    if p c then
      let (run, rest) := takeRun p cs
      (c :: run, rest)
    else ([], c :: cs)

/-- Decimal digits to a natural number. -/
def digitsToNat (ds : List Char) : Nat :=
  ds.foldl (fun a c => a * 10 + (c.toNat - 48)) 0

/-- If `cs` starts with the literal `lit`, return the remainder. -/
def dropLit : List Char → List Char → Option (List Char)
  | [], cs => some cs
  | _ :: _, [] => none
  | l :: ls, c :: cs => if c = l then dropLit ls cs else none

/-- Translate a simple JSON string escape character. -/
def escTranslate (c : Char) : Option Char :=
  if c = '"' then some '"'
  else if c = '\\' then some '\\'
  else if c = '/' then some '/'
  else if c = 'n' then some '\n'
  else if c = 't' then some '\t'
  else if c = 'r' then some '\r'
  else none

/-- Parse the rest of a JSON string after the opening quote. -/
def parseStringRest : List Char → Except String (String × List Char)
  | [] => .error "unterminated JSON string"
  | c :: cs =>
    if c = '"' then .ok ("", cs)
    else if c = '\\' then
      match cs with
      | [] => .error "unterminated JSON string"
      | e :: cs2 =>
        match escTranslate e with
        | none => .error "unsupported escape in JSON string"
        | some d =>
          match parseStringRest cs2 with
          | .error m => .error m
          | .ok (s, rest) => .ok (String.mk (d :: s.toList), rest)
    else
      match parseStringRest cs with
      | .error m => .error m
      | .ok (s, rest) => .ok (String.mk (c :: s.toList), rest)

/-- Parse a JSON number (integers only; fractional and exponent forms are
outside the model and reported as errors). -/
def parseNumber (cs : List Char) : Except String (Json × List Char) :=
  let (neg, cs1) :=
    match cs with
    | '-' :: r => (true, r)
    | r => (false, r)
  let (ds, rest) := takeRun Char.isDigit cs1
  if ds.isEmpty then .error "invalid character in JSON number"
  else
    match rest with
    | '.' :: _ => .error "unmodelled JSON number form"
    | 'e' :: _ => .error "unmodelled JSON number form"
    | 'E' :: _ => .error "unmodelled JSON number form"
    | _ =>
      let n : Int := Int.ofNat (digitsToNat ds)
      .ok (.num (if neg then -n else n), rest)

mutual

/-- Parse one JSON value (fuel-indexed recursive descent). -/
def parseValue : Nat → List Char → Except String (Json × List Char)
  | 0, _ => .error "JSON nesting too deep"
  | fuel + 1, cs =>
    match skipWs cs with
    | [] => .error "unexpected end of JSON"
    | '"' :: rest =>
      match parseStringRest rest with
      | .error m => .error m
      | .ok (s, r) => .ok (.str s, r)
    | '[' :: rest =>
      match skipWs rest with
      | ']' :: r2 => .ok (.arr [], r2)
      | r2 =>
        match parseItems fuel r2 with
        | .error m => .error m
        | .ok (vs, r3) => .ok (.arr vs, r3)
    | '{' :: rest =>
      match skipWs rest with
      | '}' :: r2 => .ok (.obj [], r2)
      | r2 =>
        match parseFields fuel r2 with
        | .error m => .error m
        | .ok (fs, r3) => .ok (.obj fs, r3)
    | c :: rest =>
      match dropLit "null".toList (c :: rest) with
      | some r => .ok (.null, r)
      | none =>
        match dropLit "true".toList (c :: rest) with
        | some r => .ok (.bool true, r)
        | none =>
          match dropLit "false".toList (c :: rest) with
          | some r => .ok (.bool false, r)
          | none =>
            if c = '-' || c.isDigit then parseNumber (c :: rest)
            else .error "invalid character in JSON"

/-- Parse the comma-separated items of a JSON array (after at least one item
is known to be present), including the closing bracket. -/
def parseItems : Nat → List Char → Except String (List Json × List Char)
  | 0, _ => .error "JSON nesting too deep"
  | fuel + 1, cs =>
    match parseValue fuel cs with
    | .error m => .error m
    | .ok (v, r) =>
      match skipWs r with
      | ',' :: r2 =>
        match parseItems fuel r2 with
        | .error m => .error m
        | .ok (vs, r3) => .ok (v :: vs, r3)
      | ']' :: r2 => .ok ([v], r2)
      | _ => .error "malformed JSON array"

/-- Parse the comma-separated fields of a JSON object (after at least one
field is known to be present), including the closing delimiter. -/
def parseFields : Nat → List Char → Except String (List (String × Json) × List Char)
  | 0, _ => .error "JSON nesting too deep"
  | fuel + 1, cs =>
    match skipWs cs with
    | '"' :: r =>
      match parseStringRest r with
      | .error m => .error m
      | .ok (k, r1) =>
        match skipWs r1 with
        | ':' :: r2 =>
          match parseValue fuel r2 with
          | .error m => .error m
          | .ok (v, r3) =>
            match skipWs r3 with
            | ',' :: r4 =>
              match parseFields fuel r4 with
              | .error m => .error m
              | .ok (fs, r5) => .ok ((k, v) :: fs, r5)
            | '}' :: r4 => .ok ([(k, v)], r4)
            | _ => .error "malformed JSON object"
        | _ => .error "malformed JSON object"
    | _ => .error "malformed JSON object"

end

/-- Outcome of one `json.Decoder.Decode` call on a buffered body. -/
inductive DecodeOut where
  | eof
  | val (j : Json)
  | fail (msg : String)

/-- Model of `json.NewDecoder(body).Decode(&data)`: empty or whitespace-only
input yields io.EOF; otherwise one value is read and trailing input is
ignored. -/
def goJsonDecode (body : String) : DecodeOut :=
  let cs := skipWs body.toList
  if cs.isEmpty then .eof
  else
    match parseValue (cs.length + 1) cs with
    | .ok (j, _) => .val j
    | .error m => .fail m

/-- Embeds `parseResponseBody`: io.EOF (empty body) is not an error and
yields nil data; a decode failure is wrapped with a fixed prefix. -/
def parseResponseBody (body : String) : Except String (Option Json) :=
  match goJsonDecode body with
  | .eof => .ok none
  | .val j => .ok (some j)
  | .fail m => .error ("error decoding json: " ++ m)

/-- HTTP headers, modelled as an association list written through `hSet`.
All header names used by the client are written with one fixed spelling, so
the canonical-key normalisation of Go `http.Header` is the identity here. -/
abbrev Headers := List (String × String)

/-- Model of `http.Header.Set`: replace the value of `k`, or append it. -/
def hSet (h : Headers) (k v : String) : Headers :=
  if h.any (fun p => p.1 = k) then h.map (fun p => if p.1 = k then (k, v) else p)
  else h ++ [(k, v)]

/-- Model of a header lookup; `none` is absence (Go `Get` returns ""). -/
def hGet (h : Headers) (k : String) : Option String :=
  (h.find? (fun p => p.1 = k)).map Prod.snd

/-- The `Response` struct of the client (rs_api.go). -/
structure Response where
  statusCode : Nat
  errorMessage : String
  data : Option Json
  raw : String
  header : Headers

/-- One raw HTTP response as handed to `processResponse`.  The body is
`none` for a nil `resp.Body`, and otherwise the full byte content; reading
the buffered body (`readBody`) always succeeds in this model. -/
structure HttpResp where
  statusCode : Nat
  status : String
  header : Headers
  body : Option String

/-- The request data that `processResponse` uses in error messages
(`req.Method` and `req.URL.Path`). -/
structure ReqInfo where
  method : String
  urlPath : String

/-- Best-effort decode: `r.data, _ = parseResponseBody(resp.Body)` discards
the error. -/
def bestEffort (e : Except String (Option Json)) : Option Json :=
  match e with
  | .ok d => d
  | .error _ => none

/-- Embeds `processResponse` (rs_api.go).  Status in [200,299): capture the
raw body, then decode it; a decode failure returns a nil Response and an
error naming the method and path.  Any other status: a non-nil Response with
the body in `errorMessage`, a best-effort decode in `data`, and an error
carrying the HTTP status line.  `readBody` is modelled as always succeeding
because the body is given as a value. -/
def processResponse (req : ReqInfo) (resp : HttpResp) : Option Response × Option String :=
  if 200 ≤ resp.statusCode ∧ resp.statusCode < 299 then
    match parseResponseBody (resp.body.getD "") with
    | .ok d =>
      (some { statusCode := resp.statusCode, errorMessage := "", data := d,
              raw := resp.body.getD "", header := resp.header }, none)
    | .error e =>
      (none, some ("HTTP " ++ req.method ++ " " ++ req.urlPath ++ ": " ++ e))
  else
    match resp.body with
    | some b =>
      (some { statusCode := resp.statusCode, errorMessage := b,
              data := bestEffort (parseResponseBody b), raw := b, header := resp.header },
       some ("HTTP " ++ req.method ++ " " ++ req.urlPath ++ ": " ++ resp.status))
    | none =>
      (some { statusCode := resp.statusCode, errorMessage := resp.status,
              data := none, raw := "", header := resp.header },
       some ("HTTP " ++ req.method ++ " " ++ req.urlPath ++ ": " ++ resp.status))

/-- The `client` struct fields that determine header injection and routing
(the live `http.Client` and the recorder sink are runtime objects outside
the model). -/
structure ClientCfg where
  apiVersion : String := ""
  debug : Bool := false
  httpServer : String := ""
  account : String := ""
  authToken : String := ""
  apiKey : String := ""
  proxySecret : String := ""
deriving Repr, DecidableEq

/-- Embeds `client.setHeaders` (rs_api.go lines 109-121). -/
def setHeaders (c : ClientCfg) (h : Headers) : Headers :=
  let h1 :=
    if c.proxySecret ≠ "" then hSet h "X-RLL-Secret" c.proxySecret
    else if c.authToken ≠ "" then hSet h "Authorization" ("Bearer " ++ c.authToken)
    else h
  let h2 := if c.account ≠ "" then hSet h1 "X-Account" c.account else h1
  let h3 := hSet h2 "X-API-VERSION" c.apiVersion
  hSet h3 "User-Agent" "right_api_cmd"

/-- Outcome of one transport attempt (`c.cl.Do(req)`): either the HTTP call
itself failed with an error and no response, or a response arrived. -/
inductive Attempt where
  | transportErr (msg : String)
  | httpResp (r : HttpResp)

/-- What `client.Do` can produce: a return (with the number of transport
attempts actually performed and the values of `processResponse`), or the
nil-pointer dereference that `resp.statusCode` would hit when
`processResponse` returned a nil Response. -/
inductive DoOutcome where
  | ret (attempts : Nat) (resp : Option Response) (err : Option String)
  | nilDeref

/-- Embeds the retry loop of `client.Do` (rs_api.go lines 361-394).

`oracle i` is the outcome of the `i`-th call to `c.cl.Do(req)`; `tryN` is
the `try` counter (starting at 1); `fuel` bounds the number of iterations we
unfold, with `none` meaning the loop is still running after `fuel`
iterations.  Mirroring the source: a transport error `continue`s without
touching `try`; a response is processed, returned if its status is < 500 or
`try >= 3`, and otherwise retried with `try+1`.  Debug logging and the
recorder write do not affect the returned value and are omitted. -/
def doLoop (oracle : Nat → Attempt) (req : ReqInfo) : Nat → Nat → Nat → Option DoOutcome
  | _, _, 0 => none
  | i, tryN, fuel + 1 =>
    match oracle i with
    | .transportErr _ => doLoop oracle req (i + 1) tryN fuel
    | .httpResp r =>
      match processResponse req r with
      | (none, _) => some .nilDeref
      | (some resp, err) =>
        if resp.statusCode < 500 ∨ 3 ≤ tryN then some (.ret (i + 1) (some resp) err)
        else doLoop oracle req (i + 1) (tryN + 1) fuel

/-- Embeds `client.Do` from the loop entry (`try := 1`).  URL assembly and
header injection (lines 345-359) happen before the loop and do not affect
the retry behaviour under verification here. -/
def Do (oracle : Nat → Attempt) (req : ReqInfo) (fuel : Nat) : Option DoOutcome :=
  doLoop oracle req 0 1 fuel

/-- Unfolding lemma for one iteration of the retry loop. -/
theorem doLoop_succ (oracle : Nat → Attempt) (req : ReqInfo) (i tryN fuel : Nat) :
    doLoop oracle req i tryN (fuel + 1)
      = match oracle i with
        | .transportErr _ => doLoop oracle req (i + 1) tryN fuel
        | .httpResp r =>
          match processResponse req r with
          | (none, _) => some .nilDeref
          | (some resp, err) =>
            if resp.statusCode < 500 ∨ 3 ≤ tryN then some (.ret (i + 1) (some resp) err)
            else doLoop oracle req (i + 1) (tryN + 1) fuel := rfl

/-- On any non-2xx status, `processResponse` returns the fully determined
non-nil Response and the status-line error. -/
theorem processResponse_error_eq (req : ReqInfo) (r : HttpResp)
    (h : ¬ (200 ≤ r.statusCode ∧ r.statusCode < 299)) :
    processResponse req r
      = (some { statusCode := r.statusCode,
                errorMessage := match r.body with | some b => b | none => r.status,
                data := match r.body with
                        | some b => bestEffort (parseResponseBody b)
                        | none => none,
                raw := r.body.getD "",
                header := r.header },
         some ("HTTP " ++ req.method ++ " " ++ req.urlPath ++ ": " ++ r.status)) := by
  unfold processResponse
  rw [if_neg h]
  cases r.body <;> rfl

/-- Helper for C2: with a transport error on every attempt, the loop never
returns, whatever the loop counters are. -/
theorem doLoop_transportErr_none (msgs : Nat → String) (req : ReqInfo)
    (i tryN fuel : Nat) :
    doLoop (fun n => .transportErr (msgs n)) req i tryN fuel = none := by
  induction fuel generalizing i with
  | zero => rfl
  | succ f ih =>
    rw [doLoop_succ]
    exact ih (i + 1)

/-- C8: for every HTTP response with status in [200,299) and an empty body,
processResponse yields a Response whose parsed data field is nil and
returns no error. -/
theorem processResponse_success_empty_body (req : ReqInfo) (s : Nat) (st : String)
    (hd : Headers) (h1 : 200 ≤ s) (h2 : s < 299) :
    processResponse req { statusCode := s, status := st, header := hd, body := some "" }
      = (some { statusCode := s, errorMessage := "", data := none, raw := "", header := hd },
         none) := by
  unfold processResponse
  rw [if_pos ⟨h1, h2⟩]
  rfl

/-- Witness for C8 at a concrete 200 response with an empty body. -/
theorem processResponse_success_empty_body_witness :
    processResponse { method := "GET", urlPath := "/api/clouds" }
        { statusCode := 200, status := "200 OK", header := [], body := some "" }
      = (some { statusCode := 200, errorMessage := "", data := none, raw := "", header := [] },
         none) :=
  processResponse_success_empty_body { method := "GET", urlPath := "/api/clouds" }
    200 "200 OK" [] (by decide) (by decide)

/-- C4: on every status outside the success range [200,299), processResponse
returns a non-nil Response together with a non-nil error carrying the HTTP
status line; a present body is stored in the errorMessage field and its
best-effort JSON decode in the data field, and an absent body leaves the
status line in errorMessage. -/
theorem processResponse_error_status_claim (req : ReqInfo) (r : HttpResp)
    (h : ¬ (200 ≤ r.statusCode ∧ r.statusCode < 299)) :
    ∃ resp : Response,
      (processResponse req r).1 = some resp
      ∧ (processResponse req r).2
          = some ("HTTP " ++ req.method ++ " " ++ req.urlPath ++ ": " ++ r.status)
      ∧ (∀ b, r.body = some b →
          resp.errorMessage = b ∧ resp.raw = b
            ∧ resp.data = bestEffort (parseResponseBody b))
      ∧ (r.body = none → resp.errorMessage = r.status) := by
  have he := processResponse_error_eq req r h
  refine ⟨_, by rw [he], by rw [he], ?_, ?_⟩
  · intro b hb
    simp [hb]
  · intro hb
    simp [hb]

/-- Witness for C4: the claim theorem applied at a concrete 404 response. -/
theorem processResponse_error_status_claim_witness :
    (processResponse { method := "GET", urlPath := "/x" }
        { statusCode := 404, status := "404 Not Found", header := [], body := some "nf" }).2
      = some "HTTP GET /x: 404 Not Found" := by
  obtain ⟨resp, h1, h2, h3, h4⟩ :=
    processResponse_error_status_claim { method := "GET", urlPath := "/x" }
      { statusCode := 404, status := "404 Not Found", header := [], body := some "nf" }
      (by decide)
  exact h2

/-- C3 counterexample: a 200 response whose body fails to decode as JSON
makes processResponse return a nil Response, so the caller does not receive
the raw payload through the returned Response. -/
theorem processResponse_decode_failure_loses_response :
    (processResponse { method := "GET", urlPath := "/api/clouds" }
        { statusCode := 200, status := "200 OK", header := [], body := some "@" }).1
      = none := rfl

/-- C3 (amended): raw body bytes are captured before decoding — every
Response that processResponse returns carries raw equal to the full body —
but when JSON decoding of a success-status body fails the caller receives a
nil Response together with an error naming the method, the path and the
decode failure; the raw payload is then not part of the return value. -/
theorem processResponse_raw_capture :
    (∀ (req : ReqInfo) (r : HttpResp) (resp : Response),
        (processResponse req r).1 = some resp → resp.raw = r.body.getD "")
  ∧ (∀ (req : ReqInfo) (r : HttpResp) (b e : String),
        200 ≤ r.statusCode → r.statusCode < 299 → r.body = some b →
        parseResponseBody b = .error e →
        processResponse req r
          = (none, some ("HTTP " ++ req.method ++ " " ++ req.urlPath ++ ": " ++ e))) := by
  constructor
  · intro req r resp h
    by_cases hs : 200 ≤ r.statusCode ∧ r.statusCode < 299
    · unfold processResponse at h
      rw [if_pos hs] at h
      cases hp : parseResponseBody (r.body.getD "") with
      | ok d =>
        rw [hp] at h
        have h3 := Option.some.inj h
        rw [← h3]
      | error e =>
        rw [hp] at h
        exact Option.noConfusion h
    · rw [processResponse_error_eq req r hs] at h
      have h3 := Option.some.inj h
      rw [← h3]
  · intro req r b e h1 h2 hb hp
    unfold processResponse
    rw [if_pos ⟨h1, h2⟩, hb]
    simp [hp]

/-- Witness for C3: the amended theorem applied at a concrete 404 response
with body "nf" (raw captured) and at a concrete 200 response with the
non-JSON body "@" (decode failure surfaces method, path and decode error). -/
theorem processResponse_raw_capture_witness :
    ({ statusCode := 404, errorMessage := "nf", data := none, raw := "nf", header := [] }
        : Response).raw
      = (some "nf" : Option String).getD ""
    ∧ processResponse { method := "GET", urlPath := "/x2" }
        { statusCode := 200, status := "200 OK", header := [], body := some "@" }
      = (none, some "HTTP GET /x2: error decoding json: invalid character in JSON") :=
  ⟨processResponse_raw_capture.1 { method := "GET", urlPath := "/x2" }
      { statusCode := 404, status := "404 Not Found", header := [], body := some "nf" }
      { statusCode := 404, errorMessage := "nf", data := none, raw := "nf", header := [] }
      (by rfl),
   processResponse_raw_capture.2 { method := "GET", urlPath := "/x2" }
      { statusCode := 200, status := "200 OK", header := [], body := some "@" }
      "@" "error decoding json: invalid character in JSON"
      (by decide) (by decide) rfl (by rfl)⟩

/-- C1: if every attempt yields an HTTP response with status at least 500,
Do performs exactly 3 attempts and returns the outcome of processing the
third response, whose error is the status-line error of that last response;
if the first attempt yields a status in [400,500), Do performs exactly 1
attempt and returns immediately. -/
theorem Do_retry_policy :
    (∀ (resps : Nat → HttpResp) (req : ReqInfo) (fuel : Nat),
        (∀ i, 500 ≤ (resps i).statusCode) →
        Do (fun i => .httpResp (resps i)) req (fuel + 3)
            = some (.ret 3 (processResponse req (resps 2)).1 (processResponse req (resps 2)).2)
          ∧ (processResponse req (resps 2)).2
              = some ("HTTP " ++ req.method ++ " " ++ req.urlPath ++ ": " ++ (resps 2).status))
  ∧ (∀ (oracle : Nat → Attempt) (req : ReqInfo) (r : HttpResp) (fuel : Nat),
        oracle 0 = .httpResp r → 400 ≤ r.statusCode → r.statusCode < 500 →
        Do oracle req (fuel + 1)
          = some (.ret 1 (processResponse req r).1 (processResponse req r).2)) := by
  constructor
  · intro resps req fuel h5
    have hnot : ∀ i, ¬ (200 ≤ (resps i).statusCode ∧ (resps i).statusCode < 299) := by
      intro i hc
      have := h5 i
      omega
    have e0 := processResponse_error_eq req (resps 0) (hnot 0)
    have e1 := processResponse_error_eq req (resps 1) (hnot 1)
    have e2 := processResponse_error_eq req (resps 2) (hnot 2)
    refine ⟨?_, by rw [e2]⟩
    have hstep3 : doLoop (fun i => .httpResp (resps i)) req 2 3 (fuel + 1)
        = some (.ret 3 (processResponse req (resps 2)).1 (processResponse req (resps 2)).2) := by
      rw [doLoop_succ]
      simp only [e2]
      rw [if_pos (Or.inr (le_refl 3))]
    have hstep2 : doLoop (fun i => .httpResp (resps i)) req 1 2 (fuel + 2)
        = some (.ret 3 (processResponse req (resps 2)).1 (processResponse req (resps 2)).2) := by
      rw [show fuel + 2 = fuel + 1 + 1 from rfl, doLoop_succ]
      simp only [e1]
      rw [if_neg (by have := h5 1; omega)]
      exact hstep3
    show doLoop (fun i => .httpResp (resps i)) req 0 1 (fuel + 3) = _
    rw [show fuel + 3 = fuel + 2 + 1 from rfl, doLoop_succ]
    simp only [e0]
    rw [if_neg (by have := h5 0; omega)]
    exact hstep2
  · intro oracle req r fuel h0 h4 h45
    have hnot : ¬ (200 ≤ r.statusCode ∧ r.statusCode < 299) := by omega
    have e := processResponse_error_eq req r hnot
    show doLoop oracle req 0 1 (fuel + 1) = _
    rw [doLoop_succ, h0]
    simp only [e]
    rw [if_pos (Or.inl (by omega))]

/-- Witness for C1: three attempts against a constant 500 oracle, one
attempt against a 404 first response. -/
theorem Do_retry_policy_witness :
    Do (fun _ => .httpResp { statusCode := 500, status := "500 Internal Server Error",
                             header := [], body := some "boom" })
        { method := "GET", urlPath := "/api/things" } 3
      = some (.ret 3
          (processResponse { method := "GET", urlPath := "/api/things" }
            { statusCode := 500, status := "500 Internal Server Error",
              header := [], body := some "boom" }).1
          (processResponse { method := "GET", urlPath := "/api/things" }
            { statusCode := 500, status := "500 Internal Server Error",
              header := [], body := some "boom" }).2)
    ∧ Do (fun _ => .httpResp { statusCode := 404, status := "404 Not Found",
                               header := [], body := some "nf" })
        { method := "GET", urlPath := "/api/things" } 1
      = some (.ret 1
          (processResponse { method := "GET", urlPath := "/api/things" }
            { statusCode := 404, status := "404 Not Found", header := [], body := some "nf" }).1
          (processResponse { method := "GET", urlPath := "/api/things" }
            { statusCode := 404, status := "404 Not Found", header := [], body := some "nf" }).2) :=
  ⟨(Do_retry_policy.1
      (fun _ => { statusCode := 500, status := "500 Internal Server Error",
                  header := [], body := some "boom" })
      { method := "GET", urlPath := "/api/things" } 0
      (fun _ => Nat.le_refl 500)).1,
   Do_retry_policy.2
      (fun _ => .httpResp { statusCode := 404, status := "404 Not Found",
                            header := [], body := some "nf" })
      { method := "GET", urlPath := "/api/things" }
      { statusCode := 404, status := "404 Not Found", header := [], body := some "nf" }
      0 rfl (by decide) (by decide)⟩

/-- C9: when both a proxy secret and a bearer token are present, header
injection attaches the proxy secret header and not the bearer header; the
bearer header is attached only when the proxy secret is empty. -/
theorem setHeaders_proxy_secret_precedence :
    (∀ c : ClientCfg, c.proxySecret ≠ "" →
        hGet (setHeaders c []) "X-RLL-Secret" = some c.proxySecret
        ∧ hGet (setHeaders c []) "Authorization" = none)
  ∧ (∀ c : ClientCfg, c.proxySecret = "" → c.authToken ≠ "" →
        hGet (setHeaders c []) "Authorization" = some ("Bearer " ++ c.authToken)) := by
  constructor
  · intro c hps
    by_cases hacc : c.account = "" <;>
      simp [setHeaders, hSet, hGet, hps, hacc]
  · intro c hps hat
    by_cases hacc : c.account = "" <;>
      simp [setHeaders, hSet, hGet, hps, hat, hacc]

/-- Witness for C9 at a client carrying both credentials, and at one with
only a token. -/
theorem setHeaders_proxy_secret_precedence_witness :
    hGet (setHeaders { apiVersion := "1.5", proxySecret := "sec", authToken := "tok" } [])
        "X-RLL-Secret" = some "sec"
    ∧ hGet (setHeaders { apiVersion := "1.5", proxySecret := "sec", authToken := "tok" } [])
        "Authorization" = none
    ∧ hGet (setHeaders { apiVersion := "1.5", authToken := "tok" } []) "Authorization"
        = some ("Bearer " ++ "tok") :=
  ⟨(setHeaders_proxy_secret_precedence.1
      { apiVersion := "1.5", proxySecret := "sec", authToken := "tok" } (by decide)).1,
   (setHeaders_proxy_secret_precedence.1
      { apiVersion := "1.5", proxySecret := "sec", authToken := "tok" } (by decide)).2,
   setHeaders_proxy_secret_precedence.2
      { apiVersion := "1.5", authToken := "tok" } rfl (by decide)⟩

/-- The crud action table of main.go (lines 338-341); a missing key is the
Go zero value, modelled as none. -/
def crudActions (a : String) : Option String :=
  if a = "index" then some "GET"
  else if a = "show" then some "GET"
  else if a = "list" then some "GET"
  else if a = "update" then some "POST"
  else if a = "create" then some "POST"
  else if a = "destroy" then some "DELETE"
  else none

/-- The exception action table of main.go (lines 344-353): URI suffix and
HTTP verb. -/
def exceptionActions (a : String) : Option (String × String) :=
  if a = "accounts" then some ("/accounts", "GET")
  else if a = "current_instances" then some ("/current_instances", "GET")
  else if a = "data" then some ("/data", "GET")
  else if a = "detail" then some ("/detail", "GET")
  else if a = "multi_update" then some ("/multi_update", "PUT")
  else if a = "servers" then some ("/servers", "GET")
  else if a = "show_source" then some ("/source", "GET")
  else if a = "update_source" then some ("/source", "PUT")
  else none

/-- Embeds the verb and URI selection of doRequest (main.go lines 370-383):
crud table first (href unchanged), then the exception table (suffix
appended), else POST with the action name appended. -/
def doRequestRoute (actionName resourceHref : String) : String × String :=
  let method := (crudActions actionName).getD ""
  if method = "" then
    match exceptionActions actionName with
    | some e => (e.2, resourceHref ++ e.1)
    | none => ("POST", resourceHref ++ "/" ++ actionName)
  else (method, resourceHref)

/-- C10: index/show/list map to GET on the unchanged href, update/create to
POST, destroy to DELETE; the exception table overrides (multi_update is PUT
on href + "/multi_update", show_source is GET on href + "/source"); every
other action maps to POST on href + "/" + action. -/
theorem doRequestRoute_verb_table :
    (∀ h : String,
        doRequestRoute "index" h = ("GET", h)
        ∧ doRequestRoute "show" h = ("GET", h)
        ∧ doRequestRoute "list" h = ("GET", h)
        ∧ doRequestRoute "update" h = ("POST", h)
        ∧ doRequestRoute "create" h = ("POST", h)
        ∧ doRequestRoute "destroy" h = ("DELETE", h)
        ∧ doRequestRoute "multi_update" h = ("PUT", h ++ "/multi_update")
        ∧ doRequestRoute "show_source" h = ("GET", h ++ "/source"))
  ∧ (∀ (a h : String), crudActions a = none → exceptionActions a = none →
        doRequestRoute a h = ("POST", h ++ "/" ++ a)) := by
  constructor
  · intro h
    exact ⟨rfl, rfl, rfl, rfl, rfl, rfl, rfl, rfl⟩
  · intro a h h1 h2
    simp [doRequestRoute, h1, h2]

/-- Witness for C10 at the action "launch" (not in either table) and at
"index". -/
theorem doRequestRoute_verb_table_witness :
    doRequestRoute "launch" "/api/servers" = ("POST", "/api/servers/launch")
    ∧ doRequestRoute "index" "/api/servers" = ("GET", "/api/servers") :=
  ⟨doRequestRoute_verb_table.2 "launch" "/api/servers" (by decide) (by decide),
   (doRequestRoute_verb_table.1 "/api/servers").1⟩

/-- Minimal JSON string escaping for re-encoding (quote and backslash; the
HTML-safe escaping Go applies by default is not exercised here). -/
def jsonEscape : List Char → List Char
  | [] => []
  | c :: cs =>
    if c = '"' then '\\' :: '"' :: jsonEscape cs
    else if c = '\\' then '\\' :: '\\' :: jsonEscape cs
    else c :: jsonEscape cs

mutual

/-- Model of json.Marshal on decoded values (object fields keep their list
order; Go sorts map keys, a difference no theorem below depends on). -/
def jsonMarshal : Json → String
  | .null => "null"
  | .bool b => if b then "true" else "false"
  | .num n => toString n
  | .str s => "\"" ++ String.mk (jsonEscape s.toList) ++ "\""
  | .arr xs => "[" ++ jsonMarshalItems xs ++ "]"
  | .obj fs => "\x7b" ++ jsonMarshalFields fs ++ "\x7d"

/-- Comma-separated serialisation of array items. -/
def jsonMarshalItems : List Json → String
  | [] => ""
  | [v] => jsonMarshal v
  | v :: w :: rest => jsonMarshal v ++ "," ++ jsonMarshalItems (w :: rest)

/-- Comma-separated serialisation of object fields. -/
def jsonMarshalFields : List (String × Json) → String
  | [] => ""
  | [(k, v)] => "\"" ++ String.mk (jsonEscape k.toList) ++ "\":" ++ jsonMarshal v
  | (k, v) :: f :: rest =>
      "\"" ++ String.mk (jsonEscape k.toList) ++ "\":" ++ jsonMarshal v ++ ","
        ++ jsonMarshalFields (f :: rest)

end

/-- Embeds the --x1 branch of doOutput (main.go lines 288-309).  The values
list is the result of the jsonselect GetValues call (an external library
collaborator); the result triple is (stdout, stderr, exit code).  Scalars
are printed as fmt.Sprint does; the json.Marshal error branch cannot fire
because serialisation is total in the model. -/
def doOutputSelectOne (values : List Json) : String × String × Nat :=
  if values.length = 0 then ("", "No value could be selected", 1)
  else if 1 < values.length then ("", "Multiple values selected", 1)
  else
    match values.headD .null with
    | .null => ("", "", 0)
    | .bool b => (if b then "true" else "false", "", 0)
    | .num n => (toString n, "", 0)
    | .str s => (s, "", 0)
    | .arr xs => (jsonMarshal (.arr xs), "", 0)
    | .obj fs => (jsonMarshal (.obj fs), "", 0)

/-- C7: in single-value mode, a selector evaluation yielding zero matches
or two or more matches reports an extraction error on stderr with exit code
1 and prints nothing — it never silently prints the first match. -/
theorem doOutputSelectOne_cardinality_guard (values : List Json)
    (h : values.length = 0 ∨ 2 ≤ values.length) :
    (doOutputSelectOne values).1 = ""
    ∧ (doOutputSelectOne values).2.1 ≠ ""
    ∧ (doOutputSelectOne values).2.2 = 1 := by
  rcases h with h | h
  · simp [doOutputSelectOne, h]
  · have h0 : ¬ values.length = 0 := by omega
    have h1 : 1 < values.length := by omega
    simp [doOutputSelectOne, h0, h1]

/-- Witness for C7 at the empty match list and at a two-element match
list. -/
theorem doOutputSelectOne_cardinality_guard_witness :
    ((doOutputSelectOne []).1 = ""
      ∧ (doOutputSelectOne []).2.1 ≠ ""
      ∧ (doOutputSelectOne []).2.2 = 1)
    ∧ ((doOutputSelectOne [.null, .null]).1 = ""
      ∧ (doOutputSelectOne [.null, .null]).2.1 ≠ ""
      ∧ (doOutputSelectOne [.null, .null]).2.2 = 1) :=
  ⟨doOutputSelectOne_cardinality_guard [] (Or.inl rfl),
   doOutputSelectOne_cardinality_guard [.null, .null] (Or.inr (by decide))⟩

/-- Path of the RightLink10 secret file on linux (main.go line 84). -/
def rllSecretPath : String := "/var/run/rll-secret"

/-- At the current position only: match the literal key followed by a
nonempty maximal run of `p`, returning (full match, capture group). -/
def matchKeyAt (key : List Char) (p : Char → Bool) (cs : List Char) :
    Option (List Char × List Char) :=
  match dropLit key cs with
  | none => none
  | some r =>
    let (run, _) := takeRun p r
    if run.isEmpty then none else some (key ++ run, run)

/-- Model of regexp FindSubmatch for the patterns RS_RLL_PORT=(digits) and
RS_RLL_SECRET=(alphanumerics): scan for the leftmost match; on success the
result is the two-element list [full match, capture group], and the empty
list when there is no match — never a one-element list. -/
def findSubmatchKey (key : List Char) (p : Char → Bool) : List Char → List String
  | [] => []
  | c :: cs =>
    match matchKeyAt key p (c :: cs) with
    | some (full, grp) => [String.mk full, String.mk grp]
    | none => findSubmatchKey key p cs

/-- Model of reRllPort.FindSubmatch (rs_api.go line 125). -/
def reRllPortFind (s : String) : List String :=
  findSubmatchKey "RS_RLL_PORT=".toList Char.isDigit s.toList

/-- ASCII letters and digits, the class of the secret capture group. -/
def isAlnumChar (c : Char) : Bool := c.isAlpha || c.isDigit

/-- Model of reRllSecret.FindSubmatch (rs_api.go line 126). -/
def reRllSecretFind (s : String) : List String :=
  findSubmatchKey "RS_RLL_SECRET=".toList isAlnumChar s.toList

/-- Characters of the host class of the reWhere pattern. -/
def isHostChar (c : Char) : Bool := c = '-' || c.isAlpha || c.isDigit || c = '.'

/-- At the current position only: host characters, a colon, digits. -/
def matchWhereAt (cs : List Char) : Option (List String) :=
  let (hostRun, rest) := takeRun isHostChar cs
  if hostRun.isEmpty then none
  else
    match rest with
    | ':' :: r2 =>
      let (portRun, _) := takeRun Char.isDigit r2
      if portRun.isEmpty then none
      else some [String.mk (hostRun ++ ':' :: portRun), String.mk hostRun, String.mk portRun]
    | _ => none

/-- Model of reWhere.FindStringSubmatch (rs_api.go line 127): the leftmost
host:port match as [full, host, port], or the empty list. -/
def reWhereFind : List Char → List String
  | [] => []
  | c :: cs =>
    match matchWhereAt (c :: cs) with
    | some m => m
    | none => reWhereFind cs

/-- Tail of NewProxyClient after the secret-file block: apply the explicit
host:port override and the explicit secret override, then build the
client (apiVersion 1.5, proxy URL from host and port). -/
def finishProxyClient (proxyHost secret : String) (debug : Bool)
    (rllHost rllPort rllSecret : String) : Except String ClientCfg :=
  let m := reWhereFind proxyHost.toList
  let hp :=
    if proxyHost ≠ "" ∧ m.length = 3 then (m.getD 1 "", m.getD 2 "")
    else (rllHost, rllPort)
  let sec := if secret ≠ "" then secret else rllSecret
  .ok { httpServer := "http://" ++ hp.1 ++ ":" ++ hp.2,
        proxySecret := sec, apiVersion := "1.5", debug := debug }

/-- Embeds NewProxyClient (rs_api.go lines 129-174).  The secret file is
passed as a value: `.error e` models an unreadable file, `.ok contents` its
text.  The `length ≠ 1` guards and the use of the list head (the full
regexp match rather than the capture group) are faithful to the source. -/
def NewProxyClient (proxyHost secret : String) (debug : Bool)
    (secretFile : Except String String) : Except String ClientCfg :=
  if proxyHost = "" ∨ secret = "" then
    match secretFile with
    | .error e => .error ("reading proxy secret file: " ++ e)
    | .ok secrets =>
      let p := reRllPortFind secrets
      if p.length ≠ 1 then
        .error ("Cannot find or parse RS_RLL_PORT in " ++ rllSecretPath)
      else
        let s := reRllSecretFind secrets
        if s.length ≠ 1 then
          .error ("Cannot find or parse RS_RLL_SECRET in " ++ rllSecretPath)
        else finishProxyClient proxyHost secret debug "localhost" (p.headD "") (s.headD "")
  else finishProxyClient proxyHost secret debug "" "" ""

/-- findSubmatchKey returns the empty list or a two-element list, never a
single element, so the source check `len(p) != 1` always fires. -/
theorem findSubmatchKey_length_ne_one (key : List Char) (p : Char → Bool)
    (cs : List Char) : (findSubmatchKey key p cs).length ≠ 1 := by
  induction cs with
  | nil => simp [findSubmatchKey]
  | cons c cs ih =>
    unfold findSubmatchKey
    split
    · simp
    · exact ih

/-- C5 (code bug): with no explicit host and secret, the secret-file path
of NewProxyClient always fails — FindSubmatch yields a list of length 0 or
2, never 1, so the `length ≠ 1` guard rejects every file content, including
one carrying both keys in either role (where the regexps do match, as the
last two conjuncts show); extraction of the (port, secret) pair never
happens. -/
theorem NewProxyClient_secret_file_always_rejected :
    (∀ (debug : Bool) (content : String),
        NewProxyClient "" "" debug (.ok content)
          = .error ("Cannot find or parse RS_RLL_PORT in " ++ rllSecretPath))
    ∧ NewProxyClient "" "" false (.ok "RS_RLL_PORT=12345\nRS_RLL_SECRET=abc123")
        = .error "Cannot find or parse RS_RLL_PORT in /var/run/rll-secret"
    ∧ reRllPortFind "RS_RLL_PORT=12345\nRS_RLL_SECRET=abc123"
        = ["RS_RLL_PORT=12345", "12345"]
    ∧ reRllSecretFind "RS_RLL_PORT=12345\nRS_RLL_SECRET=abc123"
        = ["RS_RLL_SECRET=abc123", "abc123"] := by
  refine ⟨?_, by rfl, by rfl, by rfl⟩
  intro debug content
  unfold NewProxyClient
  rw [if_pos (Or.inl rfl)]
  exact if_pos (findSubmatchKey_length_ne_one _ _ _)

/-- Unreserved characters of Go url.QueryEscape. -/
def isUnreservedQueryChar (c : Char) : Bool :=
  c.isAlpha || c.isDigit || c = '-' || c = '_' || c = '.' || c = '~'

/-- Upper-case hex digit for a value below 16. -/
def hexDigitChar (n : Nat) : Char :=
  if n < 10 then Char.ofNat (48 + n) else Char.ofNat (55 + n)

/-- Model of url.QueryEscape on one character (ASCII; multi-byte runes,
which Go escapes per UTF-8 byte, are outside the inputs used here). -/
def queryEscapeChar (c : Char) : List Char :=
  if isUnreservedQueryChar c then [c]
  else if c = ' ' then ['+']
  else ['%', hexDigitChar (c.toNat / 16 % 16), hexDigitChar (c.toNat % 16)]

/-- Model of url.QueryEscape. -/
def queryEscape (s : String) : String :=
  String.mk (s.toList.foldr (fun c acc => queryEscapeChar c ++ acc) [])

/-- Value shapes found in the args map of queryStringArgs. -/
inductive ArgVal where
  | str (s : String)
  | list (l : List String)
  | other

/-- The loop of queryStringArgs with the accumulated query string and the
current connector; the connector is updated only after a whole map entry,
exactly as in the source, and for a value of any other shape the Go code
prints to stderr and exits with code 1, modelled as none. -/
def queryStringArgsLoop : List (String × ArgVal) → String → String → Option String
  | [], qs, _ => some qs
  | (k, v) :: rest, qs, conn =>
    match v with
    | .str s =>
      queryStringArgsLoop rest (qs ++ conn ++ queryEscape k ++ "=" ++ queryEscape s) "&"
    | .list l =>
      queryStringArgsLoop rest
        (l.foldl (fun acc s => acc ++ conn ++ queryEscape k ++ "=" ++ queryEscape s) qs) "&"
    | .other => none

/-- Embeds queryStringArgs (rs_api.go lines 275-292); the map is given as
an association list in its (Go-nondeterministic) iteration order. -/
def queryStringArgs (args : List (String × ArgVal)) : Option String :=
  queryStringArgsLoop args "" ""

/-- Value of one hex digit. -/
def hexVal (c : Char) : Option Nat :=
  if '0' ≤ c ∧ c ≤ '9' then some (c.toNat - 48)
  else if 'A' ≤ c ∧ c ≤ 'F' then some (c.toNat - 55)
  else if 'a' ≤ c ∧ c ≤ 'f' then some (c.toNat - 87)
  else none

/-- Percent-decoding of one query component, with '+' as space. -/
def percentDecode : List Char → Option (List Char)
  | [] => some []
  | '%' :: h :: l :: rest => do
      let hv ← hexVal h
      let lv ← hexVal l
      let r ← percentDecode rest
      pure (Char.ofNat (16 * hv + lv) :: r)
  | '%' :: _ => none
  | '+' :: rest => do
      let r ← percentDecode rest
      pure (' ' :: r)
  | c :: rest => do
      let r ← percentDecode rest
      pure (c :: r)

/-- Decoder written from the SPEC text for the round-trip property: split
the encoded string on (unescaped) ampersands, require each piece to split
into exactly one key and one value on an (unescaped) equals sign, and
percent-decode both. -/
def decodeQueryStringSpec (qs : String) : Option (List (String × String)) :=
  (qs.toList.splitOn '&').mapM fun piece =>
    match piece.splitOn '=' with
    | [k, v] => do
      let k2 ← percentDecode k
      let v2 ← percentDecode v
      pure (String.mk k2, String.mk v2)
    | _ => none

/-- C6 (code bug): a list-valued entry iterated first emits its pairs with
no ampersand between them (the connector is updated only per map entry), so
the encoder output does not decode back to the original pairs under the
round-trip reading of the spec; the fail-fast behaviour for other value
shapes does hold. -/
theorem queryStringArgs_first_list_entry_breaks_roundtrip :
    queryStringArgs [("filter[]", .list ["a", "b"])]
        = some "filter%5B%5D=afilter%5B%5D=b"
    ∧ decodeQueryStringSpec "filter%5B%5D=afilter%5B%5D=b" = none
    ∧ decodeQueryStringSpec "filter%5B%5D=afilter%5B%5D=b"
        ≠ some [("filter[]", "a"), ("filter[]", "b")]
    ∧ queryStringArgs [("k", .other)] = none := by
  have h2 : decodeQueryStringSpec "filter%5B%5D=afilter%5B%5D=b" = none := by rfl
  refine ⟨by rfl, h2, by rw [h2]; simp, by rfl⟩

/-- C2 (code bug): if every attempt fails at the transport level, the loop
in Do never returns — the `continue` skips the try counter, so after any
number of iterations Do is still looping and the transport error is never
surfaced.  This refutes the claimed 3-attempt ceiling for transport errors. -/
theorem Do_transport_error_never_returns (msgs : Nat → String) (req : ReqInfo)
    (fuel : Nat) :
    Do (fun n => .transportErr (msgs n)) req fuel = none :=
  doLoop_transportErr_none msgs req 0 1 fuel

end RightApiCmd
